import Mathlib

/-!
Verification of the echo-casbin authorization middleware.

Shallow embedding of the `casbin` package: the configuration resolver
(the prelude of `CasbinWithConfig`) and the per-request interceptor it
returns.  Side effects (calls to the enforcement engine and to the
optional success/failure observers) are made observable as an ordered
event trace returned alongside the outcome.
-/

namespace EchoCasbin

/-- The enforcement-engine operation consumed by the middleware:
`Enforce(subject, object, action) -> (bool, error)`. -/
abbrev Enforcer := String → String → String → Except String Bool

/-- A dynamic value stored on the echo context under the roles key, as
discriminated by the `switch k.(type)` in the interceptor: Go `nil` (key
absent), a `[]string`, a `[]interface\x7b\x7d` whose elements may or may not
be strings (`some s` models a string-typed element, `none` a non-string
element), or a value of any other dynamic type. -/
inductive CtxVal where
  | nil : CtxVal
  | strList (xs : List String) : CtxVal
  | mixedList (ks : List (Option String)) : CtxVal
  | other : CtxVal

/-- The request-scoped data read by the interceptor: `ctx key` models
`c.Get(key)`, `header name` models `c.Request().Header.Get(name)` (empty
string when the header is absent), `path` models `c.Path()` (the matched
route in path-pattern form), `urlPath` models `c.Request().URL.Path` (the
raw literal path), and `method` models `c.Request().Method`. -/
structure Request where
  ctx : String → CtxVal
  header : String → String
  path : String
  urlPath : String
  method : String

/-- The middleware configuration struct.  The two observer callbacks are
side-effecting only, so they are modelled by whether they are configured;
their invocations are recorded in the event trace. -/
structure Config where
  skipper : Option (Request → Bool)
  enforcer : Option Enforcer
  contextKey : String
  defaultRole : String
  enableRolesHeader : Bool
  rolesHeader : String
  rolesHeaderFunc : Option (String → Except String (List String))
  rolesFunc : Option (Request → Except String (List String))
  forbiddenMessage : String
  successFunc : Bool
  failureFunc : Bool

/-- The echo `middleware.DefaultSkipper`: never skip. -/
def DefaultSkipper : Request → Bool := fun _ => false

/-- The package-level `DefaultConfig` value. -/
def DefaultConfig : Config where
  skipper := some DefaultSkipper
  enforcer := none
  contextKey := "roles"
  defaultRole := "any"
  enableRolesHeader := false
  rolesHeader := "X-Roles"
  rolesHeaderFunc := none
  rolesFunc := none
  forbiddenMessage := "Access to this resource has been restricted"
  successFunc := false
  failureFunc := false

/-- The option-resolution prelude of `CasbinWithConfig`: substitute the
documented default for every unset field.  The result is `none` exactly
when the code reaches `panic("enforcer is required")`. -/
def CasbinWithConfig (config : Config) : Option Config :=
  let c1 := match config.skipper with
    | none => { config with skipper := DefaultConfig.skipper }
    | some _ => config
  match c1.enforcer with
  | none => none
  | some _ =>
    let c2 := if c1.contextKey = "" then { c1 with contextKey := DefaultConfig.contextKey } else c1
    let c3 := if c2.defaultRole = "" then { c2 with defaultRole := DefaultConfig.defaultRole } else c2
    let c4 := if c3.rolesHeader = "" then { c3 with rolesHeader := DefaultConfig.rolesHeader } else c3
    let c5 := if c4.forbiddenMessage = "" then { c4 with forbiddenMessage := DefaultConfig.forbiddenMessage } else c4
    some c5

/-- The convenience constructor `Casbin(ce)`: the default configuration
with the given enforcer attached. -/
def Casbin (ce : Enforcer) : Option Config :=
  CasbinWithConfig { DefaultConfig with enforcer := some ce }

/-- The context-lookup arm of role resolution (the `switch k.(type)`
block): a `[]string` is taken as-is; the string-typed elements of a
`[]interface\x7b\x7d` are appended in order by the `for` loop; Go `nil` or a
value of any other type leaves `ok` false, so `roles` is set to the empty
slice. -/
def getContextRoles (k : CtxVal) : List String :=
  match k with
  | CtxVal.strList xs => xs
  | CtxVal.mixedList ks =>
      ks.foldl (fun roles role =>
        match role with
        | some s => roles ++ [s]
        | none => roles) []
  | CtxVal.nil => []
  | CtxVal.other => []

/-- Splitting a character list at every occurrence of a separator,
keeping empty pieces; the split of the empty list is one empty piece. -/
def splitChar (sep : Char) : List Char → List (List Char)
  | [] => [[]]
  | c :: cs =>
    match splitChar sep cs with
    | [] => [[]]
    | g :: gs => if c = sep then [] :: g :: gs else (c :: g) :: gs

/-- Go `strings.TrimSpace`: drop whitespace from both ends. -/
def goTrimSpace (s : String) : String :=
  String.mk (((s.data.dropWhile Char.isWhitespace).reverse.dropWhile
    Char.isWhitespace).reverse)

/-- Go `strings.Split(s, ",")`: every maximal comma-free piece, in order,
empty pieces kept; the split of the empty string is `[""]`. -/
def goSplitComma (s : String) : List String :=
  (splitChar ',' s.data).map String.mk

/-- Default parsing of the roles header when no `RolesHeaderFunc` is
configured: `strings.Split(rolesHeader, ",")`, then `strings.TrimSpace`
on each piece, appended in order to the (empty) role slice. -/
def appendHeaderRoles (roles : List String) (rolesHeader : String) : List String :=
  (goSplitComma rolesHeader).foldl (fun rs role => rs ++ [goTrimSpace role]) roles

/-- Role resolution (steps 2a-2c of the interceptor): the custom
`RolesFunc` takes precedence; otherwise the context lookup, then - only
when that yielded no roles and the header is enabled - the roles header,
with the default role substituted for an empty header value, parsed by
`RolesHeaderFunc` when configured and by comma-split-and-trim otherwise. -/
def resolveRoles (config : Config) (req : Request) : Except String (List String) :=
  match config.rolesFunc with
  | some f => f req
  | none =>
    let roles := getContextRoles (req.ctx config.contextKey)
    if roles.length < 1 && config.enableRolesHeader then
      let rolesHeader := req.header config.rolesHeader
      let rolesHeader := if rolesHeader = "" then config.defaultRole else rolesHeader
      match config.rolesHeaderFunc with
      | some f => f rolesHeader
      | none => Except.ok (appendHeaderRoles roles rolesHeader)
    else
      Except.ok roles

/-- The default-role fallback:
`if len(roles) < 1 \x7b roles = append(roles, config.DefaultRole) \x7d`. -/
def applyDefaultRole (config : Config) (roles : List String) : List String :=
  if roles.length < 1 then roles ++ [config.defaultRole] else roles

/-- Observable per-request events, in order: each call
`config.Enforcer.Enforce(role, obj, act)`, each invocation of the
optional `SuccessFunc(role, obj, act)`, and each invocation of the
optional `FailureFunc(roles, obj, act)`. -/
inductive Event where
  | enforce (role obj act : String) : Event
  | success (role obj act : String) : Event
  | failure (roles : List String) (obj act : String) : Event
deriving DecidableEq

/-- What the interceptor returns for a request: fall through to the next
handler, an `echo.NewHTTPError(status, message)`, or an error from
`RolesFunc` or `RolesHeaderFunc` returned unchanged. -/
inductive Outcome where
  | next : Outcome
  | httpError (status : Nat) (message : String) : Outcome
  | errPassthrough (e : String) : Outcome
deriving DecidableEq

/-- How the enforcement loop ended: a role was granted, the engine
reported an error, or every role was denied. -/
inductive LoopResult where
  | granted (role : String) : LoopResult
  | engineError (e : String) : LoopResult
  | exhausted : LoopResult
deriving DecidableEq

/-- Go `http.StatusInternalServerError`. -/
def StatusInternalServerError : Nat := 500

/-- Go `http.StatusForbidden`. -/
def StatusForbidden : Nat := 403

/-- Go `http.StatusText(http.StatusInternalServerError)`. -/
def internalServerErrorText : String := "Internal Server Error"

/-- The enforcement loop: call the engine once per role in order; stop at
the first engine error or the first grant.  Returns the enforce-call
events in order together with how the loop ended. -/
def runLoop (enf : Enforcer) (obj act : String) : List String → List Event × LoopResult
  | [] => ([], LoopResult.exhausted)
  | role :: rest =>
    match enf role obj act with
    | Except.error e => ([Event.enforce role obj act], LoopResult.engineError e)
    | Except.ok true => ([Event.enforce role obj act], LoopResult.granted role)
    | Except.ok false =>
      let next := runLoop enf obj act rest
      (Event.enforce role obj act :: next.1, next.2)

/-- The per-request interceptor returned by `CasbinWithConfig`, with the
(guaranteed non-nil) enforcer passed explicitly: skip check, role
resolution, default-role fallback, then the enforcement loop over
`(role, c.Path(), c.Request().Method)`; an engine error yields the 500
response, a grant invokes the success observer and falls through, and an
exhausted loop invokes the failure observer and yields the 403 response
carrying the configured forbidden message. -/
def handler (enf : Enforcer) (config : Config) (req : Request) : List Event × Outcome :=
  if (config.skipper.getD DefaultSkipper) req then
    ([], Outcome.next)
  else
    match resolveRoles config req with
    | Except.error e => ([], Outcome.errPassthrough e)
    | Except.ok roles0 =>
      let roles := applyDefaultRole config roles0
      let obj := req.path
      let act := req.method
      let run := runLoop enf obj act roles
      match run.2 with
      | LoopResult.engineError _ =>
          (run.1, Outcome.httpError StatusInternalServerError internalServerErrorText)
      | LoopResult.granted role =>
          (run.1 ++ (if config.successFunc then [Event.success role obj act] else []),
           Outcome.next)
      | LoopResult.exhausted =>
          (run.1 ++ (if config.failureFunc then [Event.failure roles obj act] else []),
           Outcome.httpError StatusForbidden config.forbiddenMessage)

/-! ### Concrete fixtures for example instantiations -/

/-- A concrete enforcement engine: grants `("user", "/user", "GET")` and
`("admin", "/user", "PUT")`, reports an engine error for subject
`"boom"`, and denies everything else. -/
def enfW : Enforcer := fun sub obj act =>
  if sub = "boom" then Except.error "enforce fault"
  else if sub = "user" && obj = "/user" && act = "GET" then Except.ok true
  else if sub = "admin" && obj = "/user" && act = "PUT" then Except.ok true
  else Except.ok false

/-- A concrete resolved configuration with both observers configured. -/
def cfgW : Config :=
  { DefaultConfig with
      enforcer := some enfW
      successFunc := true
      failureFunc := true }

/-- A concrete request carrying roles `["any", "user"]` on the context. -/
def reqW : Request where
  ctx := fun k => if k = "roles" then CtxVal.strList ["any", "user"] else CtxVal.nil
  header := fun _ => ""
  path := "/user"
  urlPath := "/user"
  method := "GET"

/-- A concrete request whose context role is denied everywhere. -/
def reqDeniedW : Request where
  ctx := fun k => if k = "roles" then CtxVal.strList ["nobody"] else CtxVal.nil
  header := fun _ => ""
  path := "/admin"
  urlPath := "/admin"
  method := "GET"

/-- A concrete request whose context role makes the engine error. -/
def reqErrW : Request where
  ctx := fun k => if k = "roles" then CtxVal.strList ["boom"] else CtxVal.nil
  header := fun _ => ""
  path := "/user"
  urlPath := "/user"
  method := "GET"

/-- A concrete request on which role resolution yields no roles. -/
def reqEmptyW : Request where
  ctx := fun _ => CtxVal.nil
  header := fun _ => ""
  path := "/"
  urlPath := "/"
  method := "GET"

/-- A concrete request with a mixed-type role slice on the context. -/
def reqMixedW : Request where
  ctx := fun k =>
    if k = "roles" then CtxVal.mixedList [some "alpha", none, some "beta"]
    else CtxVal.nil
  header := fun _ => ""
  path := "/user"
  urlPath := "/user"
  method := "GET"

/-- A resolved configuration with header-based role extraction enabled. -/
def cfgHeaderW : Config :=
  { DefaultConfig with
      enforcer := some enfW
      enableRolesHeader := true }

/-- A concrete request whose roles arrive via the `X-Roles` header. -/
def reqHeaderW : Request where
  ctx := fun _ => CtxVal.nil
  header := fun h => if h = "X-Roles" then " user , admin" else ""
  path := "/user"
  urlPath := "/user"
  method := "PUT"

/-- A configuration whose custom role resolver always errors. -/
def cfgRolesFuncErrW : Config :=
  { DefaultConfig with
      enforcer := some enfW
      rolesFunc := some (fun _ => Except.error "resolver down") }

/-- Whether an event is a success-observer invocation. -/
def Event.isSuccess : Event → Bool
  | Event.success _ _ _ => true
  | _ => false

/-- Whether an event is a failure-observer invocation. -/
def Event.isFailure : Event → Bool
  | Event.failure _ _ _ => true
  | _ => false

/-! ### Helper lemmas -/

/-- The string-collecting fold over a mixed-type slice is `filterMap id`. -/
theorem foldl_collect_strings (ks : List (Option String)) (acc : List String) :
    ks.foldl (fun roles role =>
      match role with
      | some s => roles ++ [s]
      | none => roles) acc = acc ++ ks.filterMap id := by
  induction ks generalizing acc with
  | nil => simp
  | cons k ks ih =>
    cases k with
    | some s => simp [List.foldl_cons, ih, List.filterMap_cons]
    | none => simp [List.foldl_cons, ih, List.filterMap_cons]

/-- Applying `getContextRoles` to a mixed-type slice keeps exactly the string
elements, in order. -/
theorem getContextRoles_mixedList (ks : List (Option String)) :
    getContextRoles (CtxVal.mixedList ks) = ks.filterMap id := by
  simpa using foldl_collect_strings ks []

/-- The trim-and-append fold is an append of the trimmed pieces. -/
theorem foldl_append_trim (ps : List String) (acc : List String) :
    ps.foldl (fun rs role => rs ++ [goTrimSpace role]) acc
      = acc ++ ps.map goTrimSpace := by
  induction ps generalizing acc with
  | nil => simp
  | cons p ps ih => simp [List.foldl_cons, ih]

/-- Default header parsing splits on commas and trims each piece. -/
theorem appendHeaderRoles_eq (roles : List String) (rolesHeader : String) :
    appendHeaderRoles roles rolesHeader
      = roles ++ (goSplitComma rolesHeader).map goTrimSpace := by
  simpa [appendHeaderRoles] using foldl_append_trim (goSplitComma rolesHeader) roles

/-- When every role in the list is denied, the loop calls the engine for
each role in order and ends exhausted. -/
theorem runLoop_all_denied (enf : Enforcer) (obj act : String) (roles : List String)
    (h : ∀ r ∈ roles, enf r obj act = Except.ok false) :
    runLoop enf obj act roles
      = (roles.map (fun r => Event.enforce r obj act), LoopResult.exhausted) := by
  induction roles with
  | nil => rfl
  | cons r rs ih =>
    have hr : enf r obj act = Except.ok false := h r (List.mem_cons_self r rs)
    have hrest := ih (fun x hx => h x (List.mem_cons_of_mem r hx))
    simp [runLoop, hr, hrest]

/-- When a denied block is followed by a granted role, the loop calls the
engine for the denied block and the granted role only, and reports the
grant. -/
theorem runLoop_first_grant (enf : Enforcer) (obj act : String)
    (rs₁ rs₂ : List String) (role : String)
    (hden : ∀ r ∈ rs₁, enf r obj act = Except.ok false)
    (hgrant : enf role obj act = Except.ok true) :
    runLoop enf obj act (rs₁ ++ role :: rs₂)
      = ((rs₁ ++ [role]).map (fun r => Event.enforce r obj act),
         LoopResult.granted role) := by
  induction rs₁ with
  | nil => simp [runLoop, hgrant]
  | cons r rs ih =>
    have hr : enf r obj act = Except.ok false := hden r (List.mem_cons_self r rs)
    have hrest := ih (fun x hx => hden x (List.mem_cons_of_mem r hx))
    simp [runLoop, hr, hrest]

/-- When a denied block is followed by a role on which the engine errors,
the loop calls the engine for the denied block and the erroring role only,
and reports the engine error. -/
theorem runLoop_engine_error (enf : Enforcer) (obj act : String)
    (rs₁ rs₂ : List String) (role : String) (e : String)
    (hden : ∀ r ∈ rs₁, enf r obj act = Except.ok false)
    (herr : enf role obj act = Except.error e) :
    runLoop enf obj act (rs₁ ++ role :: rs₂)
      = ((rs₁ ++ [role]).map (fun r => Event.enforce r obj act),
         LoopResult.engineError e) := by
  induction rs₁ with
  | nil => simp [runLoop, herr]
  | cons r rs ih =>
    have hr : enf r obj act = Except.ok false := hden r (List.mem_cons_self r rs)
    have hrest := ih (fun x hx => hden x (List.mem_cons_of_mem r hx))
    simp [runLoop, hr, hrest]

/-- Every event emitted by the loop is an enforce call on some role of the
list, with the given object and action. -/
theorem runLoop_events_shape (enf : Enforcer) (obj act : String) (roles : List String) :
    ∀ ev ∈ (runLoop enf obj act roles).1,
      ∃ r ∈ roles, ev = Event.enforce r obj act := by
  induction roles with
  | nil => intro ev hev; simp [runLoop] at hev
  | cons r rs ih =>
    intro ev hev
    cases henf : enf r obj act with
    | error e =>
      simp [runLoop, henf] at hev
      exact ⟨r, List.mem_cons_self r rs, hev⟩
    | ok b =>
      cases b with
      | true =>
        simp [runLoop, henf] at hev
        exact ⟨r, List.mem_cons_self r rs, hev⟩
      | false =>
        simp [runLoop, henf] at hev
        rcases hev with hev | hev
        · exact ⟨r, List.mem_cons_self r rs, hev⟩
        · rcases ih ev hev with ⟨x, hx, hx2⟩
          exact ⟨x, List.mem_cons_of_mem r hx, hx2⟩

/-- A grant reported by the loop really was granted by the engine. -/
theorem runLoop_granted_sound (enf : Enforcer) (obj act : String) (roles : List String)
    (role : String) (h : (runLoop enf obj act roles).2 = LoopResult.granted role) :
    enf role obj act = Except.ok true := by
  induction roles with
  | nil => simp [runLoop] at h
  | cons r rs ih =>
    cases henf : enf r obj act with
    | error e => simp [runLoop, henf] at h
    | ok b =>
      cases b with
      | true =>
        simp [runLoop, henf] at h
        exact h ▸ henf
      | false =>
        simp [runLoop, henf] at h
        exact ih h

/-- An engine error reported by the loop really was returned by the
engine on some role of the list. -/
theorem runLoop_engineError_sound (enf : Enforcer) (obj act : String)
    (roles : List String) (e : String)
    (h : (runLoop enf obj act roles).2 = LoopResult.engineError e) :
    ∃ r ∈ roles, enf r obj act = Except.error e := by
  induction roles with
  | nil => simp [runLoop] at h
  | cons r rs ih =>
    cases henf : enf r obj act with
    | error e2 =>
      simp [runLoop, henf] at h
      exact ⟨r, List.mem_cons_self r rs, h ▸ henf⟩
    | ok b =>
      cases b with
      | true => simp [runLoop, henf] at h
      | false =>
        simp [runLoop, henf] at h
        rcases ih h with ⟨x, hx, hx2⟩
        exact ⟨x, List.mem_cons_of_mem r hx, hx2⟩

/-- The loop trace holds no success-observer events. -/
theorem runLoop_countP_success (enf : Enforcer) (obj act : String)
    (roles : List String) :
    ((runLoop enf obj act roles).1.countP Event.isSuccess) = 0 := by
  rw [List.countP_eq_zero]
  intro ev hev
  rcases runLoop_events_shape enf obj act roles ev hev with ⟨r, _, rfl⟩
  simp [Event.isSuccess]

/-- Every enforce event of a request trace carries the request path and
method. -/
theorem handler_enforce_mem (enf : Enforcer) (config : Config) (req : Request)
    (role obj act : String)
    (hmem : Event.enforce role obj act ∈ (handler enf config req).1) :
    obj = req.path ∧ act = req.method := by
  cases hskip : (config.skipper.getD DefaultSkipper) req with
  | true => simp [handler, hskip] at hmem
  | false =>
    cases hres : resolveRoles config req with
    | error e => simp [handler, hskip, hres] at hmem
    | ok roles0 =>
      have hcalls := runLoop_events_shape enf req.path req.method
        (applyDefaultRole config roles0)
      cases hrun : (runLoop enf req.path req.method (applyDefaultRole config roles0)).2 with
      | engineError e =>
        simp [handler, hskip, hres, hrun] at hmem
        rcases hcalls _ hmem with ⟨r, _, hev⟩
        simp only [Event.enforce.injEq] at hev
        exact ⟨hev.2.1, hev.2.2⟩
      | granted r0 =>
        cases hsf : config.successFunc <;>
          simp [handler, hskip, hres, hrun, hsf] at hmem <;>
          (rcases hcalls _ hmem with ⟨r, _, hev⟩;
           simp only [Event.enforce.injEq] at hev;
           exact ⟨hev.2.1, hev.2.2⟩)
      | exhausted =>
        cases hff : config.failureFunc <;>
          simp [handler, hskip, hres, hrun, hff] at hmem <;>
          (rcases hcalls _ hmem with ⟨r, _, hev⟩;
           simp only [Event.enforce.injEq] at hev;
           exact ⟨hev.2.1, hev.2.2⟩)

/-- A success event in a request trace means the observer was configured,
the engine granted that very role on the request path and method, and the
request fell through. -/
theorem handler_success_mem (enf : Enforcer) (config : Config) (req : Request)
    (role obj act : String)
    (hmem : Event.success role obj act ∈ (handler enf config req).1) :
    obj = req.path ∧ act = req.method ∧ config.successFunc = true ∧
    enf role req.path req.method = Except.ok true ∧
    (handler enf config req).2 = Outcome.next := by
  cases hskip : (config.skipper.getD DefaultSkipper) req with
  | true => simp [handler, hskip] at hmem
  | false =>
    cases hres : resolveRoles config req with
    | error e => simp [handler, hskip, hres] at hmem
    | ok roles0 =>
      have hcalls := runLoop_events_shape enf req.path req.method
        (applyDefaultRole config roles0)
      cases hrun : (runLoop enf req.path req.method (applyDefaultRole config roles0)).2 with
      | engineError e =>
        simp [handler, hskip, hres, hrun] at hmem
        rcases hcalls _ hmem with ⟨r, _, hev⟩
        simp at hev
      | granted r0 =>
        cases hsf : config.successFunc with
        | false =>
          simp [handler, hskip, hres, hrun, hsf] at hmem
          rcases hcalls _ hmem with ⟨r, _, hev⟩
          simp at hev
        | true =>
          simp [handler, hskip, hres, hrun, hsf] at hmem
          rcases hmem with hmem | hmem
          · rcases hcalls _ hmem with ⟨r, _, hev⟩
            simp at hev
          · obtain ⟨rfl, rfl, rfl⟩ := hmem
            exact ⟨rfl, rfl, rfl,
              runLoop_granted_sound enf req.path req.method _ _ hrun,
              by simp [handler, hskip, hres, hrun]⟩
      | exhausted =>
        cases hff : config.failureFunc <;>
          simp [handler, hskip, hres, hrun, hff] at hmem <;>
          (rcases hcalls _ hmem with ⟨r, _, hev⟩; simp at hev)

/-- A failure event in a request trace means the observer was configured
and the request was rejected with the 403 response. -/
theorem handler_failure_mem (enf : Enforcer) (config : Config) (req : Request)
    (roles obj act) (hmem : Event.failure roles obj act ∈ (handler enf config req).1) :
    config.failureFunc = true ∧
    (handler enf config req).2
      = Outcome.httpError StatusForbidden config.forbiddenMessage := by
  cases hskip : (config.skipper.getD DefaultSkipper) req with
  | true => simp [handler, hskip] at hmem
  | false =>
    cases hres : resolveRoles config req with
    | error e => simp [handler, hskip, hres] at hmem
    | ok roles0 =>
      have hcalls := runLoop_events_shape enf req.path req.method
        (applyDefaultRole config roles0)
      cases hrun : (runLoop enf req.path req.method (applyDefaultRole config roles0)).2 with
      | engineError e =>
        simp [handler, hskip, hres, hrun] at hmem
        rcases hcalls _ hmem with ⟨r, _, hev⟩
        simp at hev
      | granted r0 =>
        cases hsf : config.successFunc <;>
          simp [handler, hskip, hres, hrun, hsf] at hmem <;>
          (rcases hcalls _ hmem with ⟨r, _, hev⟩; simp at hev)
      | exhausted =>
        cases hff : config.failureFunc with
        | false =>
          simp [handler, hskip, hres, hrun, hff] at hmem
          rcases hcalls _ hmem with ⟨r, _, hev⟩
          simp at hev
        | true =>
          exact ⟨rfl, by simp [handler, hskip, hres, hrun]⟩

/-- A request trace holds at most one success-observer event. -/
theorem handler_success_count (enf : Enforcer) (config : Config) (req : Request) :
    ((handler enf config req).1.countP Event.isSuccess) ≤ 1 := by
  cases hskip : (config.skipper.getD DefaultSkipper) req with
  | true => simp [handler, hskip]
  | false =>
    cases hres : resolveRoles config req with
    | error e => simp [handler, hskip, hres]
    | ok roles0 =>
      have hzero := runLoop_countP_success enf req.path req.method
        (applyDefaultRole config roles0)
      cases hrun : (runLoop enf req.path req.method (applyDefaultRole config roles0)).2 with
      | engineError e => simp [handler, hskip, hres, hrun, hzero]
      | granted r0 =>
        cases hsf : config.successFunc <;>
          simp [handler, hskip, hres, hrun, hsf, List.countP_append, hzero,
            List.countP_cons, Event.isSuccess]
      | exhausted =>
        cases hff : config.failureFunc <;>
          simp [handler, hskip, hres, hrun, hff, List.countP_append, hzero,
            List.countP_cons, Event.isFailure, Event.isSuccess]

/-! ### Claims -/

/-- C1: for a non-skipped request the enforcement loop iterates the
resolved role set in order, calling the engine once per role; at the
first granted role the request is authorized (falls through), the success
observer - when configured - is invoked with that role, the object and
the action, and no further roles are evaluated. -/
theorem first_grant_wins (enf : Enforcer) (config : Config) (req : Request)
    (rs₁ rs₂ : List String) (role : String)
    (hskip : (config.skipper.getD DefaultSkipper) req = false)
    (hres : resolveRoles config req = Except.ok (rs₁ ++ role :: rs₂))
    (hden : ∀ r ∈ rs₁, enf r req.path req.method = Except.ok false)
    (hgrant : enf role req.path req.method = Except.ok true) :
    handler enf config req
      = ((rs₁ ++ [role]).map (fun r => Event.enforce r req.path req.method)
           ++ (if config.successFunc then
                 [Event.success role req.path req.method]
               else []),
         Outcome.next) := by
  have hloop := runLoop_first_grant enf req.path req.method rs₁ rs₂ role hden hgrant
  simp [handler, hskip, hres, applyDefaultRole, hloop]

/-- C1 witness: with resolved roles `["any", "user"]`, `"any"` denied and
`"user"` granted, the engine is called on `"any"` then `"user"`, the
success observer fires with `"user"`, and the outcome is fall-through. -/
theorem first_grant_wins_witness :
    handler enfW cfgW reqW
      = ([Event.enforce "any" "/user" "GET", Event.enforce "user" "/user" "GET",
          Event.success "user" "/user" "GET"], Outcome.next) := by
  have h := first_grant_wins enfW cfgW reqW ["any"] [] "user" rfl rfl
    (by intro r hr; simp at hr; subst hr; rfl) rfl
  simpa [cfgW, DefaultConfig] using h

/-- C2: when every role of the effective set is denied, the failure
observer - when configured - receives the full role set with the object
and the action, and the interceptor rejects with status 403 carrying the
configured forbidden message, whether or not a failure observer is
configured. -/
theorem exhausted_rejects (enf : Enforcer) (config : Config) (req : Request)
    (roles0 : List String)
    (hskip : (config.skipper.getD DefaultSkipper) req = false)
    (hres : resolveRoles config req = Except.ok roles0)
    (hden : ∀ r ∈ applyDefaultRole config roles0,
      enf r req.path req.method = Except.ok false) :
    handler enf config req
      = ((applyDefaultRole config roles0).map
            (fun r => Event.enforce r req.path req.method)
           ++ (if config.failureFunc then
                 [Event.failure (applyDefaultRole config roles0) req.path req.method]
               else []),
         Outcome.httpError StatusForbidden config.forbiddenMessage) := by
  have hloop := runLoop_all_denied enf req.path req.method
    (applyDefaultRole config roles0) hden
  simp [handler, hskip, hres, hloop]

/-- C2 witness: the single context role `"nobody"` is denied, the failure
observer fires with the full role set, and the outcome is the 403
response with the default forbidden message. -/
theorem exhausted_rejects_witness :
    handler enfW cfgW reqDeniedW
      = ([Event.enforce "nobody" "/admin" "GET",
          Event.failure ["nobody"] "/admin" "GET"],
         Outcome.httpError StatusForbidden
           "Access to this resource has been restricted") := by
  have h := exhausted_rejects enfW cfgW reqDeniedW ["nobody"] rfl rfl
    (by intro r hr; simp [applyDefaultRole] at hr; subst hr; rfl)
  simpa [applyDefaultRole, cfgW, DefaultConfig] using h

/-- C3: an engine error aborts the loop immediately - the engine is
called for the preceding denied roles and the erroring role only, none of
the remaining roles - and the interceptor answers with the 500
server-fault response; conversely a 500 response only ever arises from an
engine error, never from a plain denial. -/
theorem engine_error_500 (enf : Enforcer) (config : Config) (req : Request) :
    (∀ rs₁ rs₂ role e,
      (config.skipper.getD DefaultSkipper) req = false →
      resolveRoles config req = Except.ok (rs₁ ++ role :: rs₂) →
      (∀ r ∈ rs₁, enf r req.path req.method = Except.ok false) →
      enf role req.path req.method = Except.error e →
      handler enf config req
        = ((rs₁ ++ [role]).map (fun r => Event.enforce r req.path req.method),
           Outcome.httpError StatusInternalServerError internalServerErrorText)) ∧
    (∀ msg, (handler enf config req).2
        = Outcome.httpError StatusInternalServerError msg →
      ∃ r e, enf r req.path req.method = Except.error e) := by
  constructor
  · intro rs₁ rs₂ role e hskip hres hden herr
    have hloop := runLoop_engine_error enf req.path req.method rs₁ rs₂ role e hden herr
    simp [handler, hskip, hres, applyDefaultRole, hloop]
  · intro msg h
    cases hskip : (config.skipper.getD DefaultSkipper) req with
    | true => simp [handler, hskip] at h
    | false =>
      cases hres : resolveRoles config req with
      | error e => simp [handler, hskip, hres] at h
      | ok roles0 =>
        cases hrun : (runLoop enf req.path req.method (applyDefaultRole config roles0)).2 with
        | granted role => simp [handler, hskip, hres, hrun] at h
        | exhausted =>
          simp [handler, hskip, hres, hrun, StatusForbidden,
            StatusInternalServerError] at h
        | engineError e =>
          rcases runLoop_engineError_sound enf req.path req.method
            (applyDefaultRole config roles0) e hrun with ⟨r, _, he⟩
          exact ⟨r, e, he⟩

/-- C3 witness: the single role `"boom"` makes the engine error; the
trace holds exactly that one engine call and the outcome is the 500
response with the generic server-error text. -/
theorem engine_error_500_witness :
    handler enfW cfgW reqErrW
      = ([Event.enforce "boom" "/user" "GET"],
         Outcome.httpError StatusInternalServerError internalServerErrorText) := by
  have h := (engine_error_500 enfW cfgW reqErrW).1 [] [] "boom" "enforce fault"
    rfl rfl (by intro r hr; simp at hr) rfl
  simpa using h

/-- C4: when role resolution yields the empty set, the default-role
fallback makes the effective role set exactly the one-element sequence
holding the configured default role, so the enforcement loop performs at
least one engine call - on the default role. -/
theorem empty_resolution_default_role (enf : Enforcer) (config : Config) (req : Request)
    (hskip : (config.skipper.getD DefaultSkipper) req = false)
    (hres : resolveRoles config req = Except.ok []) :
    applyDefaultRole config [] = [config.defaultRole] ∧
    ∃ rest out,
      handler enf config req
        = (Event.enforce config.defaultRole req.path req.method :: rest, out) := by
  refine ⟨by simp [applyDefaultRole], ?_⟩
  cases henf : enf config.defaultRole req.path req.method with
  | error e =>
    exact ⟨[], Outcome.httpError StatusInternalServerError internalServerErrorText,
      by simp [handler, hskip, hres, applyDefaultRole, runLoop, henf]⟩
  | ok b =>
    cases b with
    | true =>
      exact ⟨(if config.successFunc then
          [Event.success config.defaultRole req.path req.method] else []),
        Outcome.next,
        by simp [handler, hskip, hres, applyDefaultRole, runLoop, henf]⟩
    | false =>
      exact ⟨(if config.failureFunc then
          [Event.failure [config.defaultRole] req.path req.method] else []),
        Outcome.httpError StatusForbidden config.forbiddenMessage,
        by simp [handler, hskip, hres, applyDefaultRole, runLoop, henf]⟩

/-- C4 witness: with an absent context key, header extraction disabled
and no custom resolver, the default role `"any"` is the whole effective
set and the engine is called on it first. -/
theorem empty_resolution_default_role_witness :
    applyDefaultRole cfgW [] = ["any"] ∧
    ∃ rest out,
      handler enfW cfgW reqEmptyW = (Event.enforce "any" "/" "GET" :: rest, out) := by
  have h := empty_resolution_default_role enfW cfgW reqEmptyW rfl rfl
  simpa [cfgW, DefaultConfig] using h

/-- C5: with no custom resolver configured, the context lookup yields the
stored value for a string sequence, exactly the string-typed elements (in
order, non-strings silently dropped) for a mixed-type sequence, and the
empty role set for an absent key or any other stored shape; a non-empty
lookup result becomes the resolved role set unchanged. -/
theorem context_lookup_shapes (config : Config) (req : Request)
    (hf : config.rolesFunc = none) :
    (∀ xs, getContextRoles (CtxVal.strList xs) = xs) ∧
    (∀ ks, getContextRoles (CtxVal.mixedList ks) = ks.filterMap id) ∧
    getContextRoles CtxVal.nil = [] ∧
    getContextRoles CtxVal.other = [] ∧
    (getContextRoles (req.ctx config.contextKey) ≠ [] →
      resolveRoles config req
        = Except.ok (getContextRoles (req.ctx config.contextKey))) := by
  refine ⟨fun xs => rfl, getContextRoles_mixedList, rfl, rfl, ?_⟩
  intro hne
  have hlen : ¬ (getContextRoles (req.ctx config.contextKey)).length < 1 := by
    simpa [Nat.lt_one_iff, List.length_eq_zero] using hne
  simp [resolveRoles, hf, hlen]

/-- C5 witness: a mixed-type slice holding two strings and one non-string
resolves to exactly the two strings, in order. -/
theorem context_lookup_shapes_witness :
    resolveRoles cfgW reqMixedW = Except.ok ["alpha", "beta"] := by
  have h := (context_lookup_shapes cfgW reqMixedW rfl).2.2.2.2 (by decide)
  exact h

/-- C6: when the context lookup yielded no roles and header extraction is
enabled, the configured header is read, the default role is substituted
for an empty header value, and the resulting text is parsed by the custom
header parser when one is configured and otherwise by splitting on commas
and trimming surrounding whitespace from each piece. -/
theorem header_fallback (config : Config) (req : Request)
    (hf : config.rolesFunc = none)
    (hctx : getContextRoles (req.ctx config.contextKey) = [])
    (hen : config.enableRolesHeader = true) :
    (∀ g, config.rolesHeaderFunc = some g →
      resolveRoles config req
        = g (if req.header config.rolesHeader = "" then config.defaultRole
             else req.header config.rolesHeader)) ∧
    (config.rolesHeaderFunc = none →
      resolveRoles config req
        = Except.ok ((goSplitComma
            (if req.header config.rolesHeader = "" then config.defaultRole
             else req.header config.rolesHeader)).map goTrimSpace)) := by
  constructor
  · intro g hg
    simp [resolveRoles, hf, hctx, hen, hg]
  · intro hg
    simp [resolveRoles, hf, hctx, hen, hg, appendHeaderRoles_eq]

/-- C6 witness: with no custom parser, the header text
`" user , admin"` parses to `["user", "admin"]`. -/
theorem header_fallback_witness :
    resolveRoles cfgHeaderW reqHeaderW = Except.ok ["user", "admin"] := by
  have h := (header_fallback cfgHeaderW reqHeaderW rfl rfl rfl).2 rfl
  have h2 : ((goSplitComma
      (if reqHeaderW.header cfgHeaderW.rolesHeader = "" then cfgHeaderW.defaultRole
       else reqHeaderW.header cfgHeaderW.rolesHeader)).map goTrimSpace)
      = ["user", "admin"] := by decide
  rw [h2] at h
  exact h

/-- C7: an error returned by the custom role resolver, or by the custom
header parser, becomes the interceptor result unchanged, with an empty
trace: no engine call is made and no observer is invoked. -/
theorem custom_function_error_propagates (enf : Enforcer) (config : Config)
    (req : Request) (e : String)
    (hskip : (config.skipper.getD DefaultSkipper) req = false) :
    (∀ f, config.rolesFunc = some f → f req = Except.error e →
      handler enf config req = ([], Outcome.errPassthrough e)) ∧
    (∀ g, config.rolesFunc = none → config.rolesHeaderFunc = some g →
      getContextRoles (req.ctx config.contextKey) = [] →
      config.enableRolesHeader = true →
      g (if req.header config.rolesHeader = "" then config.defaultRole
         else req.header config.rolesHeader) = Except.error e →
      handler enf config req = ([], Outcome.errPassthrough e)) := by
  constructor
  · intro f hfs hferr
    simp [handler, hskip, resolveRoles, hfs, hferr]
  · intro g hf hg hctx hen hgerr
    simp [handler, hskip, resolveRoles, hf, hg, hctx, hen, hgerr]

/-- C7 witness: an erroring custom resolver aborts the request with its
error and an empty trace. -/
theorem custom_function_error_propagates_witness :
    handler enfW cfgRolesFuncErrW reqW
      = ([], Outcome.errPassthrough "resolver down") :=
  (custom_function_error_propagates enfW cfgRolesFuncErrW reqW "resolver down" rfl).1
    (fun _ => Except.error "resolver down") rfl rfl

/-- C8: every engine call of a request uses as object the matched route
path of the request (the path-pattern form, `c.Path()`) and as action its
HTTP method; moreover - with the default skipper and no custom
resolver - the raw literal URL path plays no part: the handler output is
unchanged under any raw URL path. -/
theorem enforce_object_action (enf : Enforcer) (config : Config) (req : Request) :
    (∀ role obj act, Event.enforce role obj act ∈ (handler enf config req).1 →
      obj = req.path ∧ act = req.method) ∧
    (config.skipper = some DefaultSkipper → config.rolesFunc = none →
      ∀ u, handler enf config { req with urlPath := u } = handler enf config req) := by
  constructor
  · exact fun role obj act hmem => handler_enforce_mem enf config req role obj act hmem
  · intro hs hf u
    simp [handler, hs, DefaultSkipper, resolveRoles, hf]

/-- C8 witness: the engine call recorded for the concrete request uses
its matched route path and method, and rewriting the raw URL path leaves
the handler output untouched. -/
theorem enforce_object_action_witness :
    ("/user" = reqW.path ∧ "GET" = reqW.method) ∧
    handler enfW cfgW { reqW with urlPath := "/raw/other" }
      = handler enfW cfgW reqW := by
  constructor
  · exact (enforce_object_action enfW cfgW reqW).1 "any" "/user" "GET" (by decide)
  · exact (enforce_object_action enfW cfgW reqW).2 rfl rfl "/raw/other"

/-- C9: constructing the middleware with no enforcement-engine handle
reaches the construction-time panic - no handler is produced - and with a
handle attached, construction always produces a handler. -/
theorem enforcer_required (config : Config) :
    CasbinWithConfig config = none ↔ config.enforcer = none := by
  cases hsk : config.skipper <;> cases hen : config.enforcer <;>
    simp [CasbinWithConfig, hsk, hen]

/-- C10: the success observer fires at most once per request, only with a
role the engine granted on the request object and action in that same
iteration, and the success and failure observers never both fire for one
request. -/
theorem observer_discipline (enf : Enforcer) (config : Config) (req : Request) :
    ((handler enf config req).1.countP Event.isSuccess ≤ 1) ∧
    (∀ role obj act, Event.success role obj act ∈ (handler enf config req).1 →
      enf role req.path req.method = Except.ok true) ∧
    ¬ ((∃ role obj act, Event.success role obj act ∈ (handler enf config req).1) ∧
       (∃ roles obj act, Event.failure roles obj act ∈ (handler enf config req).1)) := by
  refine ⟨handler_success_count enf config req, ?_, ?_⟩
  · intro role obj act hmem
    exact (handler_success_mem enf config req role obj act hmem).2.2.2.1
  · rintro ⟨⟨r, o, a, hs⟩, ⟨rs, o2, a2, hf⟩⟩
    have h1 := (handler_success_mem enf config req r o a hs).2.2.2.2
    have h2 := (handler_failure_mem enf config req rs o2 a2 hf).2
    rw [h1] at h2
    exact Outcome.noConfusion h2

/-- C10 witness: the success event recorded for the concrete request
certifies that the engine granted that role on that object and action. -/
theorem observer_discipline_witness :
    enfW "user" "/user" "GET" = Except.ok true := by
  exact (observer_discipline enfW cfgW reqW).2.1 "user" "/user" "GET" (by decide)

end EchoCasbin
